import Mathlib

/-!
Verification of the goal-tracking core of `Goals_Tracker/project.py`
(class `GoalTracker`).

The embedding is shallow and executable:

* Python floats are modelled as `Rat` (the claims under study are order
  and structural properties that hold over any ordered field; no claim
  depends on binary rounding).
* Dates are modelled structurally (`Date` with year/month/day) instead of
  the `"%Y-%m-%d"` strings the program stores; `strftime`/`strptime` with
  that fixed format round-trip, and `dateStr` records the exact string the
  program would write.  `isocalendar` is a faithful translation of
  CPython's `datetime.date.isocalendar` (proleptic-Gregorian ordinals,
  ISO-8601 week numbering); the program uses only component `[1]`, the
  week number.
* The in-memory store (`self.data`) is a `Store`; each `GoalTracker`
  method becomes a function threading the store explicitly.  `Eff α`
  additionally records, in `writes`, the list of snapshots passed to
  `save_data` during the call, so frame/persistence claims are statable.
* `goal["missed_days"]` can be absent (the `add_goal` method does not
  create that key, while `load_data` setdefaults it on loaded goals), so
  `Goal.missed_days` is an `Option`; an access to the absent key raises
  `KeyError` in Python, modelled by `log_missed_day` returning `none`.
  All remaining goal fields are present in every store the program itself
  builds (`add_goal` sets them; `load_data` setdefaults `unit` and
  `daily_logs`), so they are plain fields.
* The persisted JSON document is modelled by `JValue`; `load_data` is the
  method of the same name acting on the decoded document (input `none`
  standing for `FileNotFoundError`/`json.JSONDecodeError`, both of which
  the method catches), and `save_data` is the document the method of the
  same name serializes.
-/

/-! ## Calendar arithmetic (CPython `datetime.date`) -/

structure Date where
  year : Nat
  month : Nat
  day : Nat
deriving DecidableEq

def isLeap (y : Nat) : Bool :=
  (y % 4 == 0 && y % 100 != 0) || y % 400 == 0

/-- Cumulative days before month `m` (1-based) in a year, as in CPython's
`_days_before_month`. -/
def daysBeforeMonth (leap : Bool) (m : Nat) : Nat :=
  [0, 31, 59, 90, 120, 151, 181, 212, 243, 273, 304, 334].getD (m - 1) 0
    + (if 2 < m ∧ leap = true then 1 else 0)

/-- Days before January 1 of year `y`, as in CPython's `_days_before_year`. -/
def daysBeforeYear (y : Nat) : Nat :=
  365 * (y - 1) + (y - 1) / 4 - (y - 1) / 100 + (y - 1) / 400

/-- Proleptic Gregorian ordinal; `toOrdinal ⟨1, 1, 1⟩ = 1`, as in CPython's
`date.toordinal`. -/
def toOrdinal (d : Date) : Nat :=
  daysBeforeYear d.year + daysBeforeMonth (isLeap d.year) d.month + d.day

/-- Ordinal of the Monday starting ISO week 1 of year `y`, as in CPython's
`_isoweek1monday`. -/
def isoweek1monday (y : Nat) : Int :=
  let firstday : Int := toOrdinal ⟨y, 1, 1⟩
  let firstweekday : Int := (firstday + 6) % 7
  let week1monday := firstday - firstweekday
  if 3 < firstweekday then week1monday + 7 else week1monday

/-- The triple `(iso_year, iso_week, iso_weekday)`, as in CPython's
`date.isocalendar`.  The program reads component `[1]`. -/
def isocalendar (d : Date) : Nat × Nat × Nat :=
  let today : Int := toOrdinal d
  let week1monday := isoweek1monday d.year
  let week := (today - week1monday).fdiv 7
  let day := (today - week1monday).fmod 7
  if week < 0 then
    let w1 := isoweek1monday (d.year - 1)
    (d.year - 1, ((today - w1).fdiv 7 + 1).toNat, ((today - w1).fmod 7 + 1).toNat)
  else if 52 ≤ week ∧ isoweek1monday (d.year + 1) ≤ today then
    (d.year + 1, 1, (day + 1).toNat)
  else
    (d.year, (week + 1).toNat, (day + 1).toNat)

/-- The ISO week number, `datetime.now().isocalendar()[1]` /
`datetime.strptime(log["date"], "%Y-%m-%d").isocalendar()[1]`. -/
def isoWeekNum (d : Date) : Nat := (isocalendar d).2.1

/-! ## Data model -/

structure LogEntry where
  date : Date
  progress : Rat
deriving DecidableEq

structure MissEntry where
  date : Date
  reason : String
deriving DecidableEq

structure Goal where
  name : String
  total_target : Rat
  weekly_target : Rat
  unit : String
  daily_logs : List LogEntry
  missed_days : Option (List MissEntry)
  completion_date : Option Date
deriving DecidableEq

structure Store where
  active_goals : List Goal
  completed_goals : List Goal
deriving DecidableEq

/-- Result of one `GoalTracker` method call: the store after the call, the
snapshots handed to `save_data` during the call (in order), and the
returned value. -/
structure Eff (α : Type) where
  store : Store
  writes : List Store
  ret : α
deriving DecidableEq

/-- Translation of `sum(log["progress"] for log in goal["daily_logs"])`. -/
def logsSum (logs : List LogEntry) : Rat :=
  (logs.map LogEntry.progress).sum

/-! ## Operations (`GoalTracker` methods) -/

/-- Method `GoalTracker.add_goal`.  Note the constructed dict has no
`missed_days` key, hence `missed_days := none`. -/
def add_goal (name : String) (total_target weekly_target : Rat) (unit : String)
    (s : Store) : Eff Unit :=
  let s' : Store :=
    { s with active_goals := s.active_goals ++
        [{ name := name, total_target := total_target,
           weekly_target := weekly_target, unit := unit,
           daily_logs := [], missed_days := none, completion_date := none }] }
  ⟨s', [s'], ()⟩

/-- Method `GoalTracker.delete_goal`: keeps the goals whose name differs. -/
def delete_goal (goal_name : String) (s : Store) : Eff Unit :=
  let s' : Store :=
    { s with active_goals := s.active_goals.filter (fun g => !(g.name == goal_name)) }
  ⟨s', [s'], ()⟩

/-- Loop `for goal in self.data["active_goals"]: if goal["name"] == goal_name`
search: splits the list at the first goal whose name matches. -/
def splitFirst (goal_name : String) : List Goal → Option (List Goal × Goal × List Goal)
  | [] => none
  | g :: gs =>
    if g.name == goal_name then some ([], g, gs)
    else
      match splitFirst goal_name gs with
      | none => none
      | some (pre, m, post) => some (g :: pre, m, post)

/-- Method `GoalTracker.log_progress`, with `GoalTracker.complete_goal` inlined at
its single call site.  `complete_goal` mutates the matched (aliased) dict
and then calls `list.remove`, which deletes the first list element equal
to the stamped goal; every goal before the matched position has a
different `name` while the stamped goal carries the matched name, so the
element removed is exactly the matched one, leaving `pre ++ post`.
`complete_goal` saves once and `log_progress` saves again, hence the two
(equal) snapshots in `writes` on the completion path. -/
def log_progress (today : Date) (goal_name : String) (progress : Rat)
    (s : Store) : Eff Bool :=
  match splitFirst goal_name s.active_goals with
  | none => ⟨s, [], false⟩
  | some (pre, g, post) =>
    let g' : Goal := { g with daily_logs := g.daily_logs ++ [{ date := today, progress := progress }] }
    if g'.total_target ≤ logsSum g'.daily_logs then
      let g'' : Goal := { g' with completion_date := some today }
      let s' : Store := { active_goals := pre ++ post,
                          completed_goals := s.completed_goals ++ [g''] }
      ⟨s', [s', s'], true⟩
    else
      let s' : Store := { s with active_goals := pre ++ g' :: post }
      ⟨s', [s'], true⟩

/-- Method `GoalTracker.log_missed_day`.  Here `goal["missed_days"]` raises `KeyError`
when the key is absent (as on goals freshly created by `add_goal`);
that exceptional outcome is the `none` result. -/
def log_missed_day (today : Date) (goal_name reason : String)
    (s : Store) : Option (Eff Bool) :=
  match splitFirst goal_name s.active_goals with
  | none => some ⟨s, [], false⟩
  | some (pre, g, post) =>
    match g.missed_days with
    | none => none
    | some ms =>
      let g' : Goal := { g with missed_days := some (ms ++ [{ date := today, reason := reason }]) }
      let s' : Store := { s with active_goals := pre ++ g' :: post }
      some ⟨s', [s'], true⟩

/-- Method `GoalTracker.get_weekly_progress`: first matching active goal, summing
the log entries whose ISO week number equals today's; `0` when no
active goal matches.  The method contains no assignment and no
`save_data` call, which the translation records as `store := s`,
`writes := []`. -/
def get_weekly_progress (today : Date) (goal_name : String) (s : Store) : Eff Rat :=
  match splitFirst goal_name s.active_goals with
  | none => ⟨s, [], 0⟩
  | some (_, g, _) =>
    ⟨s, [], logsSum (g.daily_logs.filter (fun log => isoWeekNum log.date == isoWeekNum today))⟩

/-! ## Reachability and the active-goal invariant -/

/-- Sum of logged progress stays strictly below the total target for every
active goal. -/
def Invariant (s : Store) : Prop :=
  ∀ g ∈ s.active_goals, logsSum g.daily_logs < g.total_target

instance (s : Store) : Decidable (Invariant s) := by
  unfold Invariant; infer_instance

/-- No active goal carries a `completion_date` (the completing operation
always removes the goal it stamps from the active list). -/
def Unstamped (s : Store) : Prop :=
  ∀ g ∈ s.active_goals, g.completion_date = none

/-- Stores reachable from the empty store by the five public operations
(`log_missed_day` steps are those that return normally). -/
inductive Reachable : Store → Prop where
  | empty : Reachable ⟨[], []⟩
  | add (n : String) (t w : Rat) (u : String) {s : Store} :
      Reachable s → Reachable (add_goal n t w u s).store
  | del (n : String) {s : Store} :
      Reachable s → Reachable (delete_goal n s).store
  | log (d : Date) (n : String) (a : Rat) {s : Store} :
      Reachable s → Reachable (log_progress d n a s).store
  | miss (d : Date) (n r : String) {s : Store} {e : Eff Bool} :
      Reachable s → log_missed_day d n r s = some e → Reachable e.store
  | query (d : Date) (n : String) {s : Store} :
      Reachable s → Reachable (get_weekly_progress d n s).store

/-- Reachability where every added goal has a positive total target. -/
inductive ReachablePos : Store → Prop where
  | empty : ReachablePos ⟨[], []⟩
  | add (n : String) (t w : Rat) (u : String) {s : Store} :
      ReachablePos s → 0 < t → ReachablePos (add_goal n t w u s).store
  | del (n : String) {s : Store} :
      ReachablePos s → ReachablePos (delete_goal n s).store
  | log (d : Date) (n : String) (a : Rat) {s : Store} :
      ReachablePos s → ReachablePos (log_progress d n a s).store
  | miss (d : Date) (n r : String) {s : Store} {e : Eff Bool} :
      ReachablePos s → log_missed_day d n r s = some e → ReachablePos e.store
  | query (d : Date) (n : String) {s : Store} :
      ReachablePos s → ReachablePos (get_weekly_progress d n s).store

/-! ## The persisted JSON document and `load_data` / `save_data`

Python 3.7+ dict semantics used by `load_data`: keys are unique;
assignment to an existing key updates in place (position kept) and to a
fresh key appends; `setdefault` appends when the key is absent; `pop`
removes the key.  A decoded JSON object is an association list in key
order. -/

inductive JValue where
  | null
  | bool (b : Bool)
  | num (q : Rat)
  | str (s : String)
  | arr (elems : List JValue)
  | obj (fields : List (String × JValue))

def lookupKey (k : String) : List (String × JValue) → Option JValue
  | [] => none
  | (k', v) :: rest => if k' == k then some v else lookupKey k rest

/-- Python `dict.pop k`. -/
def popKey (k : String) (l : List (String × JValue)) : List (String × JValue) :=
  l.filter (fun kv => !(kv.1 == k))

/-- Python `d[k] = v`. -/
def setKey (k : String) (v : JValue) (l : List (String × JValue)) :
    List (String × JValue) :=
  if (lookupKey k l).isSome then
    l.map (fun kv => if kv.1 == k then (k, v) else kv)
  else l ++ [(k, v)]

/-- Python `d.setdefault k v`. -/
def setdefaultKey (k : String) (v : JValue) (l : List (String × JValue)) :
    List (String × JValue) :=
  if (lookupKey k l).isSome then l else l ++ [(k, v)]

/-- The per-goal normalization loop of `load_data`: `setdefault` of
`unit`, then `missed_days`, then `daily_logs` (appending absent keys in
that order). -/
def normGoal (g : List (String × JValue)) : List (String × JValue) :=
  setdefaultKey "daily_logs" (JValue.arr [])
    (setdefaultKey "missed_days" (JValue.arr [])
      (setdefaultKey "unit" (JValue.str "units") g))

/-- Normalization mapped over the `active_goals` array; a non-object
element would make the Python loop raise (`AttributeError`), modelled as
`none`. -/
def normGoals : List JValue → Option (List JValue)
  | [] => some []
  | JValue.obj g :: rest => (normGoals rest).map (fun rest' => JValue.obj (normGoal g) :: rest')
  | _ => none

/-- Method `GoalTracker.load_data` on the decoded document.  Input `none` stands
for the caught `FileNotFoundError` / `json.JSONDecodeError`.  Result
`none` models an uncaught exception: a non-object top level or a
non-array / non-object-element `active_goals` value makes the Python body
raise `TypeError`/`AttributeError` outside the `except` clause (the
degenerate iterables that happen not to raise, such as an empty-string
value, are outside the shapes any claim exercises and are folded into
this error case). -/
def load_data (input : Option JValue) : Option JValue :=
  match input with
  | none => some (JValue.obj [("active_goals", JValue.arr []), ("completed_goals", JValue.arr [])])
  | some (JValue.obj kvs) =>
    let kvs1 :=
      match lookupKey "goals" kvs, lookupKey "active_goals" kvs with
      | some v, none => setKey "active_goals" v (popKey "goals" kvs)
      | _, _ => kvs
    let kvs2 := setdefaultKey "active_goals" (JValue.arr []) kvs1
    let kvs3 := setdefaultKey "completed_goals" (JValue.arr []) kvs2
    match lookupKey "active_goals" kvs3 with
    | some (JValue.arr gs) =>
      match normGoals gs with
      | some gs' => some (JValue.obj (setKey "active_goals" (JValue.arr gs') kvs3))
      | none => none
    | _ => none
  | some _ => none

def pad2 (n : Nat) : String := if n < 10 then "0" ++ toString n else toString n

def pad4 (n : Nat) : String :=
  if n < 10 then "000" ++ toString n
  else if n < 100 then "00" ++ toString n
  else if n < 1000 then "0" ++ toString n
  else toString n

/-- Format `strftime("%Y-%m-%d")`. -/
def dateStr (d : Date) : String :=
  pad4 d.year ++ "-" ++ pad2 d.month ++ "-" ++ pad2 d.day

def logToJ (e : LogEntry) : JValue :=
  JValue.obj [("date", JValue.str (dateStr e.date)), ("progress", JValue.num e.progress)]

def missToJ (m : MissEntry) : JValue :=
  JValue.obj [("date", JValue.str (dateStr m.date)), ("reason", JValue.str m.reason)]

/-- The key/value list of one serialized goal dict.  `add_goal` creates
the first five keys in this order; `missed_days` is present only when the
goal carries it, and `completion_date` only once completed. -/
def goalFields (g : Goal) : List (String × JValue) :=
  [("name", JValue.str g.name),
   ("total_target", JValue.num g.total_target),
   ("weekly_target", JValue.num g.weekly_target),
   ("unit", JValue.str g.unit),
   ("daily_logs", JValue.arr (g.daily_logs.map logToJ))]
  ++ (match g.missed_days with
      | none => []
      | some ms => [("missed_days", JValue.arr (ms.map missToJ))])
  ++ (match g.completion_date with
      | none => []
      | some d => [("completion_date", JValue.str (dateStr d))])

def goalToJ (g : Goal) : JValue := JValue.obj (goalFields g)

/-- The document `GoalTracker.save_data` serializes (`json.dump` of
`self.data`). -/
def save_data (s : Store) : JValue :=
  JValue.obj [("active_goals", JValue.arr (s.active_goals.map goalToJ)),
              ("completed_goals", JValue.arr (s.completed_goals.map goalToJ))]

/-- Give every active goal lacking the `missed_days` key an empty one —
the only change `load_data` makes to a document `save_data` wrote. -/
def fillMissed (s : Store) : Store :=
  { s with active_goals :=
      s.active_goals.map (fun g => { g with missed_days := some (g.missed_days.getD []) }) }

/-! ## Projections used to exhibit document differences -/

def jKeys : JValue → List String
  | JValue.obj kvs => kvs.map Prod.fst
  | _ => []

def activeGoalsOf : Option JValue → Option JValue
  | some (JValue.obj kvs) => lookupKey "active_goals" kvs
  | _ => none

def keysOfFirst : Option JValue → List String
  | some (JValue.arr (g :: _)) => jKeys g
  | _ => []

/-- Key list of the first active goal of a document. -/
def firstActiveGoalKeys (doc : Option JValue) : List String :=
  keysOfFirst (activeGoalsOf doc)

/-! ## Concrete stores used in examples, witnesses and counterexamples -/

def emptyStore : Store := ⟨[], []⟩

def d0 : Date := ⟨2025, 1, 6⟩

/-- Store after `add_goal("run", 10, 5, "km")` on the empty store. -/
def sRun : Store := (add_goal "run" 10 5 "km" emptyStore).store

/-- Store with the `"run"` goal carrying one 6 km log; equal to
`(log_progress d0 "run" 6 sRun).store` (established in
`claim_C1_witness`). -/
def sRun6 : Store :=
  ⟨[{ name := "run", total_target := 10, weekly_target := 5, unit := "km",
      daily_logs := [⟨d0, 6⟩], missed_days := none, completion_date := none }], []⟩

/-- A goal as it would sit in memory right after `load_data` (all keys
present, `missed_days` defaulted to `[]`). -/
def gLoaded : Goal :=
  { name := "read", total_target := 100, weekly_target := 5, unit := "pages",
    daily_logs := [], missed_days := some [], completion_date := none }

def sLoaded : Store := ⟨[gLoaded], []⟩

/-- Active goal with one log entry in ISO week 1 of 2023 (2023-01-05). -/
def gWeek : Goal :=
  { name := "g", total_target := 100, weekly_target := 5, unit := "units",
    daily_logs := [⟨⟨2023, 1, 5⟩, 3⟩], missed_days := some [], completion_date := none }

def sWeek : Store := ⟨[gWeek], []⟩

/-- The `"run"` goal after logging 6 km on 2025-01-06. -/
def gRun6 : Goal :=
  { name := "run", total_target := 10, weekly_target := 5, unit := "km",
    daily_logs := [⟨d0, 6⟩], missed_days := none, completion_date := none }

/-- The `"run"` goal once 6 then 5 km are logged: completed. -/
def gRunDone : Goal :=
  { name := "run", total_target := 10, weekly_target := 5, unit := "km",
    daily_logs := [⟨d0, 6⟩, ⟨d0, 5⟩], missed_days := none,
    completion_date := some d0 }

/-- A completed goal, named `"swim"`. -/
def gDone : Goal :=
  { name := "swim", total_target := 2, weekly_target := 1, unit := "laps",
    daily_logs := [⟨d0, 2⟩], missed_days := some [], completion_date := some d0 }

/-- One active goal plus one completed goal named `"swim"`. -/
def sDone : Store := ⟨[gLoaded], [gDone]⟩

/-- Legacy-format document whose single goal record has only the three
numeric/name fields. -/
def legacyGoalFields : List (String × JValue) :=
  [("name", JValue.str "g"), ("total_target", JValue.num 1), ("weekly_target", JValue.num 1)]

def legacyDocFields : List (String × JValue) :=
  [("goals", JValue.arr [JValue.obj legacyGoalFields])]

/-! ## Helper lemmas: the first-match search -/

theorem splitFirst_eq_some {n : String} :
    ∀ {l pre post : List Goal} {g : Goal},
      splitFirst n l = some (pre, g, post) →
      l = pre ++ g :: post ∧ g.name = n ∧ ∀ x ∈ pre, x.name ≠ n := by
  intro l
  induction l with
  | nil => intro pre post g h; simp [splitFirst] at h
  | cons a as ih =>
    intro pre post g h
    rw [splitFirst] at h
    by_cases ha : (a.name == n) = true
    · rw [if_pos ha] at h
      obtain ⟨rfl, rfl, rfl⟩ := by simpa using h
      exact ⟨rfl, by simpa using ha, by simp⟩
    · rw [if_neg ha] at h
      cases hs : splitFirst n as with
      | none => rw [hs] at h; simp at h
      | some t =>
        obtain ⟨pre', g', post'⟩ := t
        rw [hs] at h
        obtain ⟨rfl, rfl, rfl⟩ := by simpa using h
        obtain ⟨hl, hn, hpre⟩ := ih hs
        refine ⟨by simp [hl], hn, ?_⟩
        intro x hx
        rcases List.mem_cons.mp hx with rfl | hx
        · simpa using ha
        · exact hpre x hx

theorem splitFirst_eq_none {n : String} :
    ∀ {l : List Goal}, splitFirst n l = none ↔ ∀ g ∈ l, g.name ≠ n := by
  intro l
  induction l with
  | nil => simp [splitFirst]
  | cons a as ih =>
    rw [splitFirst]
    by_cases ha : (a.name == n) = true
    · rw [if_pos ha]
      simp only [beq_iff_eq] at ha
      constructor
      · intro h; simp at h
      · intro h
        exact absurd ha (h a (List.mem_cons_self a as))
    · rw [if_neg ha]
      simp only [beq_iff_eq] at ha
      constructor
      · intro h g hg
        rcases List.mem_cons.mp hg with rfl | hg
        · exact ha
        · cases hs : splitFirst n as with
          | none => exact (ih.mp hs) g hg
          | some t =>
            obtain ⟨pre', g', post'⟩ := t
            rw [hs] at h
            simp at h
      · intro h
        have : splitFirst n as = none := ih.mpr (fun g hg => h g (List.mem_cons_of_mem a hg))
        rw [this]

/-! ## Helper lemmas: dict operations -/

theorem lookupKey_append_of_none {k : String} {l₁ l₂ : List (String × JValue)}
    (h : lookupKey k l₁ = none) : lookupKey k (l₁ ++ l₂) = lookupKey k l₂ := by
  induction l₁ with
  | nil => simp
  | cons a rest ih =>
    obtain ⟨k', v⟩ := a
    simp only [lookupKey] at h
    rw [List.cons_append]
    simp only [lookupKey]
    by_cases hk : (k' == k) = true
    · rw [if_pos hk] at h; simp at h
    · rw [if_neg hk] at h
      rw [if_neg hk]
      exact ih h

theorem lookupKey_append_of_some {k : String} {l₁ l₂ : List (String × JValue)} {v : JValue}
    (h : lookupKey k l₁ = some v) : lookupKey k (l₁ ++ l₂) = some v := by
  induction l₁ with
  | nil => simp [lookupKey] at h
  | cons a rest ih =>
    obtain ⟨k', w⟩ := a
    simp only [lookupKey] at h
    rw [List.cons_append]
    simp only [lookupKey]
    by_cases hk : (k' == k) = true
    · rw [if_pos hk] at h ⊢; exact h
    · rw [if_neg hk] at h ⊢; exact ih h

theorem lookupKey_setdefault_self {k : String} {v : JValue} {l : List (String × JValue)} :
    lookupKey k (setdefaultKey k v l) = some ((lookupKey k l).getD v) := by
  rw [setdefaultKey]
  cases h : lookupKey k l with
  | none =>
    simp only [Option.isSome_none, Bool.false_eq_true, if_false, Option.getD_none]
    rw [lookupKey_append_of_none h]
    simp [lookupKey]
  | some w =>
    simp only [Option.isSome_some, if_true, Option.getD_some]
    exact h

theorem lookupKey_setdefault_ne {k k' : String} (hne : k' ≠ k) {v : JValue}
    {l : List (String × JValue)} :
    lookupKey k' (setdefaultKey k v l) = lookupKey k' l := by
  rw [setdefaultKey]
  by_cases h : (lookupKey k l).isSome
  · rw [if_pos h]
  · rw [if_neg h]
    cases hl : lookupKey k' l with
    | none =>
      rw [lookupKey_append_of_none hl]
      simp only [lookupKey]
      rw [if_neg (by simpa using fun h => hne h.symm)]
    | some w => exact lookupKey_append_of_some hl

theorem lookupKey_mapReplace {k : String} {v : JValue} :
    ∀ {l : List (String × JValue)}, (lookupKey k l).isSome →
      lookupKey k (l.map (fun kv => if kv.1 == k then (k, v) else kv)) = some v := by
  intro l
  induction l with
  | nil => intro h; simp [lookupKey] at h
  | cons a rest ih =>
    intro h
    obtain ⟨k₀, v₀⟩ := a
    simp only [lookupKey] at h
    simp only [List.map_cons]
    by_cases hk : (k₀ == k) = true
    · have : (if ((k₀, v₀).1 == k) = true then (k, v) else (k₀, v₀)) = (k, v) := by
        simp [hk]
      rw [this]
      simp [lookupKey]
    · rw [if_neg hk] at h
      have : (if ((k₀, v₀).1 == k) = true then (k, v) else (k₀, v₀)) = (k₀, v₀) := by
        simp [hk]
      rw [this]
      simp only [lookupKey]
      rw [if_neg hk]
      exact ih h

theorem lookupKey_setKey_self {k : String} {v : JValue} {l : List (String × JValue)} :
    lookupKey k (setKey k v l) = some v := by
  rw [setKey]
  by_cases h : (lookupKey k l).isSome
  · rw [if_pos h]
    exact lookupKey_mapReplace h
  · rw [if_neg h]
    have hn : lookupKey k l = none := by
      cases hl : lookupKey k l with
      | none => rfl
      | some w => rw [hl] at h; simp at h
    rw [lookupKey_append_of_none hn]
    simp [lookupKey]

theorem lookupKey_setKey_ne {k k' : String} (hne : k' ≠ k) {v : JValue}
    {l : List (String × JValue)} :
    lookupKey k' (setKey k v l) = lookupKey k' l := by
  rw [setKey]
  by_cases h : (lookupKey k l).isSome
  · rw [if_pos h]
    clear h
    induction l with
    | nil => simp
    | cons a rest ih =>
      obtain ⟨k₀, v₀⟩ := a
      simp only [List.map_cons]
      by_cases hk : (k₀ == k) = true
      · have he : (if ((k₀, v₀).1 == k) = true then (k, v) else (k₀, v₀)) = (k, v) := by
          simp [hk]
        rw [he]
        simp only [lookupKey]
        have hkk : ¬ ((k == k') = true) := by
          simp only [beq_iff_eq]
          exact fun h => hne h.symm
        rw [if_neg hkk]
        have hk0 : ¬ ((k₀ == k') = true) := by
          simp only [beq_iff_eq] at hk ⊢
          rw [hk]; exact fun h => hne h.symm
        rw [if_neg hk0]
        exact ih
      · have he : (if ((k₀, v₀).1 == k) = true then (k, v) else (k₀, v₀)) = (k₀, v₀) := by
          simp [hk]
        rw [he]
        simp only [lookupKey]
        by_cases hk' : (k₀ == k') = true
        · rw [if_pos hk', if_pos hk']
        · rw [if_neg hk', if_neg hk']
          exact ih
  · rw [if_neg h]
    cases hl : lookupKey k' l with
    | none =>
      rw [lookupKey_append_of_none hl]
      simp only [lookupKey]
      rw [if_neg (by simpa using fun h => hne h.symm)]
    | some w => exact lookupKey_append_of_some hl

theorem lookupKey_popKey_self {k : String} {l : List (String × JValue)} :
    lookupKey k (popKey k l) = none := by
  induction l with
  | nil => rfl
  | cons a rest ih =>
    obtain ⟨k₀, v₀⟩ := a
    rw [popKey, List.filter_cons]
    by_cases hk : (k₀ == k) = true
    · simp only [hk, Bool.not_true, Bool.false_eq_true, if_false]
      exact ih
    · simp only [Bool.not_eq_true'] at hk
      simp only [hk, Bool.not_false, if_true]
      simp only [lookupKey]
      rw [if_neg (by simp [hk])]
      exact ih

theorem lookupKey_popKey_ne {k k' : String} (hne : k' ≠ k) {l : List (String × JValue)} :
    lookupKey k' (popKey k l) = lookupKey k' l := by
  induction l with
  | nil => rfl
  | cons a rest ih =>
    obtain ⟨k₀, v₀⟩ := a
    rw [popKey, List.filter_cons]
    by_cases hk : (k₀ == k) = true
    · simp only [hk, Bool.not_true, Bool.false_eq_true, if_false]
      simp only [lookupKey]
      have hk0 : ¬ ((k₀ == k') = true) := by
        simp only [beq_iff_eq] at hk ⊢
        rw [hk]; exact fun h => hne h.symm
      rw [if_neg hk0]
      exact ih
    · simp only [Bool.not_eq_true'] at hk
      simp only [hk, Bool.not_false, if_true]
      simp only [lookupKey]
      by_cases hk' : (k₀ == k') = true
      · rw [if_pos hk', if_pos hk']
      · rw [if_neg hk', if_neg hk']
        exact ih

/-! ## Sanity checks of the calendar translation -/

theorem isocalendar_2024_01_04 : isocalendar ⟨2024, 1, 4⟩ = (2024, 1, 4) := by decide

theorem isocalendar_2023_01_05 : isocalendar ⟨2023, 1, 5⟩ = (2023, 1, 4) := by decide

theorem isocalendar_2023_01_01 : isocalendar ⟨2023, 1, 1⟩ = (2022, 52, 7) := by decide

theorem isocalendar_2021_01_01 : isocalendar ⟨2021, 1, 1⟩ = (2020, 53, 5) := by decide

theorem isocalendar_2025_01_06 : isocalendar ⟨2025, 1, 6⟩ = (2025, 2, 1) := by decide

theorem toOrdinal_epoch : toOrdinal ⟨1970, 1, 1⟩ = 719163 := by decide

/-! ## Claim C10 -/

/-- C10: the weekly-progress query is a pure read: for every store state
and every name, it leaves the store (both goal collections, every field)
unchanged and performs no persistence write. -/
theorem claim_C10_query_pure (today : Date) (n : String) (s : Store) :
    (get_weekly_progress today n s).store = s ∧
      (get_weekly_progress today n s).writes = [] := by
  unfold get_weekly_progress
  cases h : splitFirst n s.active_goals with
  | none => exact ⟨rfl, rfl⟩
  | some t => obtain ⟨pre, g, post⟩ := t; exact ⟨rfl, rfl⟩

/-! ## Claim C8 -/

/-- C8: when no active goal is named `n` (names of completed goals do not
matter, the query never consults `completed_goals`), the weekly-progress
query returns `0`, raises no error, and writes nothing. -/
theorem claim_C8_weekly_default (today : Date) (n : String) (s : Store)
    (hn : ∀ g ∈ s.active_goals, g.name ≠ n) :
    get_weekly_progress today n s = ⟨s, [], 0⟩ := by
  unfold get_weekly_progress
  rw [splitFirst_eq_none.mpr hn]

theorem claim_C8_witness :
    get_weekly_progress d0 "swim" sDone = ⟨sDone, [], 0⟩ :=
  claim_C8_weekly_default d0 "swim" sDone (by decide)

/-! ## Claim C3 -/

/-- C3: with a name matching no active goal, `log_progress` and
`log_missed_day` both return `false`, raise no exception, mutate nothing
and write nothing. -/
theorem claim_C3_unknown_name (today : Date) (n a_reason : String) (a : Rat) (s : Store)
    (hn : ∀ g ∈ s.active_goals, g.name ≠ n) :
    log_progress today n a s = ⟨s, [], false⟩ ∧
      log_missed_day today n a_reason s = some ⟨s, [], false⟩ := by
  constructor
  · unfold log_progress
    rw [splitFirst_eq_none.mpr hn]
  · unfold log_missed_day
    rw [splitFirst_eq_none.mpr hn]

theorem claim_C3_witness :
    log_progress d0 "swim" 3 sDone = ⟨sDone, [], false⟩ ∧
      log_missed_day d0 "swim" "ill" sDone = some ⟨sDone, [], false⟩ :=
  claim_C3_unknown_name d0 "swim" "ill" 3 sDone (by decide)

/-! ## Claim C9 -/

/-- C9: the claim is what the spec intends, but the code violates it on a
goal created in the same session.  `add_goal` builds the goal dict without
a `missed_days` key (only `load_data` setdefaults it), so on the store
obtained by `add_goal("run", 10, 5, "km")`, the call
`log_missed_day("run", "sick")` evaluates `goal["missed_days"]` on a dict
lacking that key and raises `KeyError` instead of appending and returning
`True` (first conjunct, the `none` outcome).  On a goal that does carry
the key — any goal that passed through `load_data` — the call behaves as
the claim says (second conjunct). -/
theorem claim_C9_missed_day_keyerror :
    log_missed_day d0 "run" "sick" sRun = none ∧
      log_missed_day d0 "read" "sick" sLoaded =
        some ⟨⟨[{ gLoaded with missed_days := some [⟨d0, "sick"⟩] }], []⟩,
              [⟨[{ gLoaded with missed_days := some [⟨d0, "sick"⟩] }], []⟩], true⟩ := by
  exact ⟨rfl, rfl⟩

/-! ## Claim C1 -/

/-- C1: on the first active goal named `n`, `log_progress(n, a)` appends
`{date: today, progress: a}` to its `daily_logs` and returns `true`; if
the recomputed sum of all logged progress reaches `total_target`, the same
call stamps `completion_date := today`, appends the goal to
`completed_goals` and removes it from `active_goals` (writing twice, once
from the inlined completion and once from `log_progress`); otherwise the
goal stays active with the appended log and `completed_goals` is
untouched. -/
theorem claim_C1_log_progress (today : Date) (n : String) (a : Rat) (s : Store)
    (pre post : List Goal) (g : Goal)
    (h : splitFirst n s.active_goals = some (pre, g, post)) :
    (log_progress today n a s).ret = true
    ∧ (g.total_target ≤ logsSum (g.daily_logs ++ [⟨today, a⟩]) →
        (log_progress today n a s).store.active_goals = pre ++ post
        ∧ (log_progress today n a s).store.completed_goals =
            s.completed_goals ++
              [{ g with daily_logs := g.daily_logs ++ [⟨today, a⟩],
                        completion_date := some today }]
        ∧ (log_progress today n a s).writes =
            [(log_progress today n a s).store, (log_progress today n a s).store])
    ∧ (logsSum (g.daily_logs ++ [⟨today, a⟩]) < g.total_target →
        (log_progress today n a s).store.active_goals =
            pre ++ { g with daily_logs := g.daily_logs ++ [⟨today, a⟩] } :: post
        ∧ (log_progress today n a s).store.completed_goals = s.completed_goals
        ∧ (log_progress today n a s).writes = [(log_progress today n a s).store]) := by
  refine ⟨?_, ?_, ?_⟩
  · simp only [log_progress, h]
    split <;> rfl
  · intro hge
    simp only [log_progress, h]
    split
    · exact ⟨rfl, rfl, rfl⟩
    · next hlt => exact absurd hge hlt
  · intro hlt
    simp only [log_progress, h]
    split
    · next hge => exact absurd hge (not_le.mpr hlt)
    · exact ⟨rfl, rfl, rfl⟩

/-- C1 witness, also checking the spec's concrete scenario: a target-10
goal with no logs stays active after logging 6, then completes after
logging 5 (cumulative 11 ≥ 10), carrying its completion date and leaving
the active collection. -/
theorem claim_C1_witness :
    ((log_progress d0 "run" 6 sRun).ret = true
      ∧ (log_progress d0 "run" 6 sRun).store.active_goals = sRun6.active_goals
      ∧ (log_progress d0 "run" 6 sRun).store.completed_goals = [])
    ∧ ((log_progress d0 "run" 5 sRun6).ret = true
      ∧ (log_progress d0 "run" 5 sRun6).store.active_goals = []
      ∧ (log_progress d0 "run" 5 sRun6).store.completed_goals = [gRunDone]) := by
  have h6 := claim_C1_log_progress d0 "run" 6 sRun [] []
    ⟨"run", 10, 5, "km", [], none, none⟩ (by decide)
  have h5 := claim_C1_log_progress d0 "run" 5 sRun6 [] []
    ⟨"run", 10, 5, "km", [⟨d0, 6⟩], none, none⟩ (by decide)
  have k6 := h6.2.2 (by norm_num [logsSum])
  have k5 := h5.2.1 (by norm_num [logsSum])
  exact ⟨⟨h6.1, k6.1, k6.2.1⟩, ⟨h5.1, k5.1, k5.2.1⟩⟩

/-! ## Claim C4 -/

/-- C4: `delete_goal n` removes every active goal named `n` (all matches:
multiplicity of goals named `n` drops to zero, every other goal keeps its
multiplicity), keeps `completed_goals` and the relative order of the
remaining active goals (the new active list is a sublist of the old), and
when nothing matches it leaves the whole store unchanged and returns
without error. -/
theorem claim_C4_delete (n : String) (s : Store) :
    (delete_goal n s).store.completed_goals = s.completed_goals
    ∧ (∀ g : Goal, g ∈ (delete_goal n s).store.active_goals ↔
        g ∈ s.active_goals ∧ g.name ≠ n)
    ∧ (delete_goal n s).store.active_goals.Sublist s.active_goals
    ∧ (∀ g : Goal, g.name = n → (delete_goal n s).store.active_goals.count g = 0)
    ∧ (∀ g : Goal, g.name ≠ n →
        (delete_goal n s).store.active_goals.count g = s.active_goals.count g)
    ∧ ((∀ g ∈ s.active_goals, g.name ≠ n) → (delete_goal n s).store = s) := by
  refine ⟨rfl, ?_, ?_, ?_, ?_, ?_⟩
  · intro g
    show g ∈ s.active_goals.filter (fun g => !(g.name == n)) ↔ _
    rw [List.mem_filter]
    simp
  · exact List.filter_sublist s.active_goals
  · intro g hg
    apply List.count_eq_zero.mpr
    intro hmem
    have := List.mem_filter.mp hmem
    simp [hg] at this
  · intro g hg
    show (s.active_goals.filter (fun g => !(g.name == n))).count g = _
    induction s.active_goals with
    | nil => rfl
    | cons a rest ih =>
      rw [List.filter_cons]
      by_cases ha : (a.name == n) = true
      · have hne : a ≠ g := by
          intro h
          rw [h] at ha
          exact hg (by simpa using ha)
        simp only [ha, Bool.not_true, Bool.false_eq_true, if_false]
        rw [List.count_cons_of_ne (by exact fun h => hne h.symm)]
        exact ih
      · simp only [Bool.not_eq_true'] at ha
        simp only [ha, Bool.not_false, if_true]
        rw [List.count_cons, List.count_cons]
        rw [ih]
  · intro h
    show ({ s with active_goals := s.active_goals.filter (fun g => !(g.name == n)) } : Store) = s
    have : s.active_goals.filter (fun g => !(g.name == n)) = s.active_goals := by
      apply List.filter_eq_self.mpr
      intro a ha
      simpa using h a ha
    rw [this]

theorem claim_C4_witness :
    (delete_goal "read" sDone).store = ⟨[], [gDone]⟩
    ∧ (delete_goal "none-such" sDone).store = sDone := by
  constructor
  · have h := (claim_C4_delete "read" sDone).2.2.2.1
    have hz : (delete_goal "read" sDone).store.active_goals.count gLoaded = 0 :=
      h gLoaded rfl
    have : (delete_goal "read" sDone).store.active_goals = [] := by
      revert hz
      decide
    show (⟨(delete_goal "read" sDone).store.active_goals, sDone.completed_goals⟩ : Store) = _
    rw [this]
    rfl
  · exact (claim_C4_delete "none-such" sDone).2.2.2.2.2 (by decide)

/-! ## Invariant preservation lemmas -/

theorem weekly_frame (d : Date) (n : String) (s : Store) :
    (get_weekly_progress d n s).store = s ∧ (get_weekly_progress d n s).writes = [] := by
  unfold get_weekly_progress
  cases h : splitFirst n s.active_goals with
  | none => exact ⟨rfl, rfl⟩
  | some t => obtain ⟨pre, g, post⟩ := t; exact ⟨rfl, rfl⟩

theorem Invariant_add {s : Store} (hs : Invariant s) {t : Rat} (ht : 0 < t)
    (n : String) (w : Rat) (u : String) : Invariant (add_goal n t w u s).store := by
  intro g hg
  simp only [add_goal] at hg
  rcases List.mem_append.mp hg with h | h
  · exact hs g h
  · simp only [List.mem_singleton] at h
    subst h
    simpa [logsSum] using ht

theorem Invariant_del {s : Store} (hs : Invariant s) (n : String) :
    Invariant (delete_goal n s).store := by
  intro g hg
  simp only [delete_goal] at hg
  exact hs g (List.mem_filter.mp hg).1

theorem Invariant_log {s : Store} (hs : Invariant s) (d : Date) (n : String) (a : Rat) :
    Invariant (log_progress d n a s).store := by
  cases h : splitFirst n s.active_goals with
  | none =>
    intro g hg
    simp only [log_progress, h] at hg
    exact hs g hg
  | some t =>
    obtain ⟨pre, g0, post⟩ := t
    obtain ⟨hl, hn, hpre⟩ := splitFirst_eq_some h
    intro g hg
    simp only [log_progress, h] at hg
    split at hg
    · rcases List.mem_append.mp hg with hp | hp
      · exact hs g (by rw [hl]; exact List.mem_append_left _ hp)
      · exact hs g (by rw [hl]; exact List.mem_append_right _ (List.mem_cons_of_mem _ hp))
    · next hlt =>
      rcases List.mem_append.mp hg with hp | hp
      · exact hs g (by rw [hl]; exact List.mem_append_left _ hp)
      · rcases List.mem_cons.mp hp with rfl | hp
        · exact not_le.mp hlt
        · exact hs g (by rw [hl]; exact List.mem_append_right _ (List.mem_cons_of_mem _ hp))

theorem Invariant_miss {s : Store} (hs : Invariant s) {d : Date} {n r : String}
    {e : Eff Bool} (h : log_missed_day d n r s = some e) : Invariant e.store := by
  cases hsf : splitFirst n s.active_goals with
  | none =>
    simp only [log_missed_day, hsf] at h
    obtain rfl := Option.some.inj h
    exact hs
  | some t =>
    obtain ⟨pre, g0, post⟩ := t
    obtain ⟨hl, hn, hpre⟩ := splitFirst_eq_some hsf
    simp only [log_missed_day, hsf] at h
    cases hm : g0.missed_days with
    | none => rw [hm] at h; simp at h
    | some ms =>
      rw [hm] at h
      obtain rfl := Option.some.inj h
      intro g hg
      rcases List.mem_append.mp hg with hp | hp
      · exact hs g (by rw [hl]; exact List.mem_append_left _ hp)
      · rcases List.mem_cons.mp hp with rfl | hp
        · have h0 : logsSum g0.daily_logs < g0.total_target :=
            hs g0 (by rw [hl]; exact List.mem_append_right _ (List.mem_cons_self _ _))
          exact h0
        · exact hs g (by rw [hl]; exact List.mem_append_right _ (List.mem_cons_of_mem _ hp))

/-! ## Claim C2 -/

/-- C2 (amended): in every store reachable from the empty store when
every added goal has a positive `total_target`, each active goal's summed
logged progress stays strictly below its `total_target`; every operation
preserves this.  (As literally claimed — non-negative targets — it fails:
see the counterexample with `total_target = 0`.) -/
theorem claim_C2_invariant {s : Store} (h : ReachablePos s) : Invariant s := by
  induction h with
  | empty => intro g hg; simp at hg
  | add n t w u _ ht ih => exact Invariant_add ih ht n w u
  | del n _ ih => exact Invariant_del ih n
  | log d n a _ ih => exact Invariant_log ih d n a
  | miss d n r hr he ih => exact Invariant_miss ih he
  | query d n _ ih =>
    intro g hg
    rw [(weekly_frame d n _).1] at hg
    exact ih g hg

/-- C2 counterexample: `add_goal` with the non-negative total target `0`
(allowed by the claim) reaches, in one step from the empty store, a state
whose active goal has `sum(daily_logs) = 0 ≥ 0 = total_target`, so the
claimed invariant does not hold for every non-negative target. -/
theorem claim_C2_counterexample :
    (0 : Rat) ≤ 0 ∧ ¬ Invariant (add_goal "g" 0 0 "units" emptyStore).store := by
  refine ⟨le_refl 0, ?_⟩
  intro h
  have h0 := h ⟨"g", 0, 0, "units", [], none, none⟩ (by decide)
  simp [logsSum] at h0

theorem claim_C2_witness : Invariant (log_progress d0 "run" 6 sRun).store :=
  claim_C2_invariant
    (ReachablePos.log d0 "run" 6
      (ReachablePos.add "run" 10 5 "km" ReachablePos.empty (by decide)))

/-! ## Claim C5 -/

/-- C5 (amended): for the first active goal named `n`, the weekly query
returns the sum of progress over exactly the log entries whose ISO week
NUMBER equals the current date's ISO week number — the code compares only
`isocalendar()[1]` and ignores the ISO year.  Entries lying in the same
ISO calendar week as today (equal full `isocalendar` value, i.e. between
the same Monday and Sunday) are always included, as the original claim
says; but entries of a different ISO calendar week sharing the week
number (same week of another year) are also included, which the
counterexample exhibits. -/
theorem claim_C5_weekly_filter (today : Date) (n : String) (s : Store)
    (pre post : List Goal) (g : Goal)
    (h : splitFirst n s.active_goals = some (pre, g, post)) :
    (get_weekly_progress today n s).ret =
      logsSum (g.daily_logs.filter (fun e => isoWeekNum e.date == isoWeekNum today))
    ∧ (∀ e ∈ g.daily_logs, isocalendar e.date = isocalendar today →
        e ∈ g.daily_logs.filter (fun e => isoWeekNum e.date == isoWeekNum today)) := by
  constructor
  · unfold get_weekly_progress
    rw [h]
  · intro e he hcal
    rw [List.mem_filter]
    refine ⟨he, ?_⟩
    simp [isoWeekNum, hcal]

/-- C5 counterexample: today = 2024-01-04 lies in ISO week 1 of ISO year
2024; the goal's only log entry is dated 2023-01-05, ISO week 1 of ISO
year 2023 — a different ISO calendar week.  The claim says entries from a
different ISO calendar week are never summed, so the query would have to
return 0; the code returns 3, because both dates have week number 1. -/
theorem claim_C5_counterexample :
    (isocalendar ⟨2023, 1, 5⟩).1 ≠ (isocalendar ⟨2024, 1, 4⟩).1
    ∧ (get_weekly_progress ⟨2024, 1, 4⟩ "g" sWeek).ret = 3
    ∧ (3 : Rat) ≠ 0 := by
  refine ⟨by decide, ?_, by norm_num⟩
  have hs : splitFirst "g" sWeek.active_goals = some ([], gWeek, []) := by decide
  have h1 : isoWeekNum ⟨2023, 1, 5⟩ = 1 := by decide
  have h2 : isoWeekNum ⟨2024, 1, 4⟩ = 1 := by decide
  simp only [get_weekly_progress, hs]
  simp [gWeek, logsSum, h1, h2]

theorem claim_C5_witness :
    (get_weekly_progress ⟨2024, 1, 4⟩ "g" sWeek).ret =
      logsSum (gWeek.daily_logs.filter
        (fun e => isoWeekNum e.date == isoWeekNum ⟨2024, 1, 4⟩)) :=
  (claim_C5_weekly_filter ⟨2024, 1, 4⟩ "g" sWeek [] [] gWeek (by decide)).1

/-! ## Normalization lemmas for `load_data` -/

theorem normGoal_unit (f : List (String × JValue)) :
    lookupKey "unit" (normGoal f) =
      some ((lookupKey "unit" f).getD (JValue.str "units")) := by
  unfold normGoal
  rw [lookupKey_setdefault_ne (by decide : ("unit" : String) ≠ "daily_logs"),
      lookupKey_setdefault_ne (by decide : ("unit" : String) ≠ "missed_days"),
      lookupKey_setdefault_self]

theorem normGoal_missed (f : List (String × JValue)) :
    lookupKey "missed_days" (normGoal f) =
      some ((lookupKey "missed_days" f).getD (JValue.arr [])) := by
  unfold normGoal
  rw [lookupKey_setdefault_ne (by decide : ("missed_days" : String) ≠ "daily_logs"),
      lookupKey_setdefault_self,
      lookupKey_setdefault_ne (by decide : ("missed_days" : String) ≠ "unit")]

theorem normGoal_daily (f : List (String × JValue)) :
    lookupKey "daily_logs" (normGoal f) =
      some ((lookupKey "daily_logs" f).getD (JValue.arr [])) := by
  unfold normGoal
  rw [lookupKey_setdefault_self,
      lookupKey_setdefault_ne (by decide : ("daily_logs" : String) ≠ "missed_days"),
      lookupKey_setdefault_ne (by decide : ("daily_logs" : String) ≠ "unit")]

theorem normGoal_other (f : List (String × JValue)) (k : String)
    (h1 : k ≠ "unit") (h2 : k ≠ "missed_days") (h3 : k ≠ "daily_logs") :
    lookupKey k (normGoal f) = lookupKey k f := by
  unfold normGoal
  rw [lookupKey_setdefault_ne h3, lookupKey_setdefault_ne h2, lookupKey_setdefault_ne h1]

theorem normGoal_of_populated (f : List (String × JValue))
    (hu : (lookupKey "unit" f).isSome) (hm : (lookupKey "missed_days" f).isSome)
    (hd : (lookupKey "daily_logs" f).isSome) : normGoal f = f := by
  unfold normGoal
  simp [setdefaultKey, hu, hm, hd]

theorem normGoals_get {gs gs' : List JValue} (h : normGoals gs = some gs') :
    gs'.length = gs.length ∧
      ∀ i f, gs.get? i = some (JValue.obj f) → gs'.get? i = some (JValue.obj (normGoal f)) := by
  induction gs generalizing gs' with
  | nil =>
    simp only [normGoals] at h
    obtain rfl := Option.some.inj h
    exact ⟨rfl, by intro i f hf; simp at hf⟩
  | cons g rest ih =>
    cases g with
    | obj f0 =>
      simp only [normGoals] at h
      cases hr : normGoals rest with
      | none => rw [hr] at h; simp at h
      | some rest' =>
        rw [hr] at h
        simp only [Option.map_some'] at h
        obtain rfl := Option.some.inj h
        obtain ⟨hlen, hget⟩ := ih hr
        refine ⟨by simp [hlen], ?_⟩
        intro i f hf
        cases i with
        | zero =>
          simp only [List.get?] at hf ⊢
          obtain rfl := JValue.obj.inj (Option.some.inj hf)
          rfl
        | succ j =>
          simp only [List.get?] at hf ⊢
          exact hget j f hf
    | null => simp [normGoals] at h
    | bool b => simp [normGoals] at h
    | num q => simp [normGoals] at h
    | str t => simp [normGoals] at h
    | arr a => simp [normGoals] at h

theorem load_data_legacy {kvs : List (String × JValue)} {gs gs' : List JValue}
    (h1 : lookupKey "goals" kvs = some (JValue.arr gs))
    (h2 : lookupKey "active_goals" kvs = none)
    (h3 : normGoals gs = some gs') :
    load_data (some (JValue.obj kvs)) =
      some (JValue.obj (setKey "active_goals" (JValue.arr gs')
        (setdefaultKey "completed_goals" (JValue.arr [])
          (setKey "active_goals" (JValue.arr gs) (popKey "goals" kvs))))) := by
  have e2 : setdefaultKey "active_goals" (JValue.arr [])
      (setKey "active_goals" (JValue.arr gs) (popKey "goals" kvs)) =
      setKey "active_goals" (JValue.arr gs) (popKey "goals" kvs) := by
    rw [setdefaultKey, lookupKey_setKey_self]
    rfl
  have e3 : lookupKey "active_goals"
      (setdefaultKey "completed_goals" (JValue.arr [])
        (setKey "active_goals" (JValue.arr gs) (popKey "goals" kvs))) =
      some (JValue.arr gs) := by
    rw [lookupKey_setdefault_ne (by decide : ("active_goals" : String) ≠ "completed_goals"),
        lookupKey_setKey_self]
  simp only [load_data, h1, h2, e2, e3, h3]

/-! ## Claim C6 -/

/-- C6 (amended): the load postcondition.  (1) A missing or undecodable
resource yields `{active_goals: [], completed_goals: []}` with no error.
(2) Legacy migration: a document with a `goals` key (an array of records)
and no `active_goals` key loads to a document whose `active_goals` is the
original `goals` value with the per-goal defaulting of (3) applied to each
record, and with no `goals` key — as literally claimed (`active_goals`
EQUAL to the original value) it fails when a record lacks a defaulted
field, see the counterexample; equality does hold when every record
already carries `unit`, `missed_days` and `daily_logs` (last conjunct).
(3) Per-goal defaulting: each normalized record has
`unit = "units"`, `missed_days = []`, `daily_logs = []` exactly where the
original lacked those keys (otherwise the original values), and every
other field is unaltered. -/
theorem claim_C6_load_norm :
    (load_data none =
      some (JValue.obj [("active_goals", JValue.arr []), ("completed_goals", JValue.arr [])]))
    ∧ (∀ kvs gs gs', lookupKey "goals" kvs = some (JValue.arr gs) →
        lookupKey "active_goals" kvs = none → normGoals gs = some gs' →
        ∃ kvs', load_data (some (JValue.obj kvs)) = some (JValue.obj kvs')
          ∧ lookupKey "active_goals" kvs' = some (JValue.arr gs')
          ∧ lookupKey "goals" kvs' = none)
    ∧ (∀ gs gs', normGoals gs = some gs' →
        gs'.length = gs.length ∧
          ∀ i f, gs.get? i = some (JValue.obj f) →
            gs'.get? i = some (JValue.obj (normGoal f)))
    ∧ (∀ f, lookupKey "unit" (normGoal f) =
        some ((lookupKey "unit" f).getD (JValue.str "units")))
    ∧ (∀ f, lookupKey "missed_days" (normGoal f) =
        some ((lookupKey "missed_days" f).getD (JValue.arr [])))
    ∧ (∀ f, lookupKey "daily_logs" (normGoal f) =
        some ((lookupKey "daily_logs" f).getD (JValue.arr [])))
    ∧ (∀ f k, k ≠ "unit" → k ≠ "missed_days" → k ≠ "daily_logs" →
        lookupKey k (normGoal f) = lookupKey k f)
    ∧ (∀ f, (lookupKey "unit" f).isSome → (lookupKey "missed_days" f).isSome →
        (lookupKey "daily_logs" f).isSome → normGoal f = f) := by
  refine ⟨rfl, ?_, ?_, normGoal_unit, normGoal_missed, normGoal_daily,
    normGoal_other, normGoal_of_populated⟩
  · intro kvs gs gs' h1 h2 h3
    refine ⟨_, load_data_legacy h1 h2 h3, lookupKey_setKey_self, ?_⟩
    rw [lookupKey_setKey_ne (by decide : ("goals" : String) ≠ "active_goals"),
        lookupKey_setdefault_ne (by decide : ("goals" : String) ≠ "completed_goals"),
        lookupKey_setKey_ne (by decide : ("goals" : String) ≠ "active_goals"),
        lookupKey_popKey_self]
  · intro gs gs' h
    exact normGoals_get h

/-- C6 counterexample: a legacy document whose single `goals` record has
only `name`, `total_target` and `weekly_target`.  After loading, the
record under `active_goals` has gained `unit`, `missed_days` and
`daily_logs`, so `active_goals` is NOT equal to the original `goals`
value, contradicting the claim's part (2) as literally stated. -/
theorem claim_C6_counterexample :
    lookupKey "goals" legacyDocFields = some (JValue.arr [JValue.obj legacyGoalFields])
    ∧ lookupKey "active_goals" legacyDocFields = none
    ∧ firstActiveGoalKeys (load_data (some (JValue.obj legacyDocFields))) =
        ["name", "total_target", "weekly_target", "unit", "missed_days", "daily_logs"]
    ∧ jKeys (JValue.obj legacyGoalFields) = ["name", "total_target", "weekly_target"]
    ∧ activeGoalsOf (load_data (some (JValue.obj legacyDocFields))) ≠
        some (JValue.arr [JValue.obj legacyGoalFields]) := by
  refine ⟨rfl, rfl, rfl, rfl, ?_⟩
  intro h
  exact absurd (congrArg keysOfFirst h) (by decide)

theorem claim_C6_witness :
    (∃ kvs', load_data (some (JValue.obj legacyDocFields)) = some (JValue.obj kvs')
      ∧ lookupKey "active_goals" kvs' =
          some (JValue.arr [JValue.obj (normGoal legacyGoalFields)])
      ∧ lookupKey "goals" kvs' = none)
    ∧ lookupKey "unit" (normGoal legacyGoalFields) = some (JValue.str "units")
    ∧ lookupKey "name" (normGoal legacyGoalFields) = some (JValue.str "g") := by
  refine ⟨claim_C6_load_norm.2.1 legacyDocFields [JValue.obj legacyGoalFields]
      [JValue.obj (normGoal legacyGoalFields)] rfl rfl rfl, ?_, ?_⟩
  · rw [claim_C6_load_norm.2.2.2.1 legacyGoalFields]
    rfl
  · rw [claim_C6_load_norm.2.2.2.2.2.2.1 legacyGoalFields "name"
      (by decide) (by decide) (by decide)]
    rfl

/-! ## Round-trip lemmas -/

theorem Unstamped_add {s : Store} (hs : Unstamped s) (n : String) (t w : Rat)
    (u : String) : Unstamped (add_goal n t w u s).store := by
  intro g hg
  simp only [add_goal] at hg
  rcases List.mem_append.mp hg with hp | hp
  · exact hs g hp
  · simp only [List.mem_singleton] at hp
    subst hp
    rfl

theorem Unstamped_del {s : Store} (hs : Unstamped s) (n : String) :
    Unstamped (delete_goal n s).store := by
  intro g hg
  simp only [delete_goal] at hg
  exact hs g (List.mem_filter.mp hg).1

theorem Unstamped_log {s : Store} (hs : Unstamped s) (d : Date) (n : String) (a : Rat) :
    Unstamped (log_progress d n a s).store := by
  cases h : splitFirst n s.active_goals with
  | none =>
    intro g hg
    simp only [log_progress, h] at hg
    exact hs g hg
  | some t =>
    obtain ⟨pre, g0, post⟩ := t
    obtain ⟨hl, hn, hpre⟩ := splitFirst_eq_some h
    intro g hg
    simp only [log_progress, h] at hg
    split at hg
    · rcases List.mem_append.mp hg with hp | hp
      · exact hs g (by rw [hl]; exact List.mem_append_left _ hp)
      · exact hs g (by rw [hl]; exact List.mem_append_right _ (List.mem_cons_of_mem _ hp))
    · rcases List.mem_append.mp hg with hp | hp
      · exact hs g (by rw [hl]; exact List.mem_append_left _ hp)
      · rcases List.mem_cons.mp hp with rfl | hp
        · exact hs g0 (by rw [hl]; exact List.mem_append_right _ (List.mem_cons_self _ _))
        · exact hs g (by rw [hl]; exact List.mem_append_right _ (List.mem_cons_of_mem _ hp))

theorem Unstamped_miss {s : Store} (hs : Unstamped s) {d : Date} {n r : String}
    {e : Eff Bool} (h : log_missed_day d n r s = some e) : Unstamped e.store := by
  cases hsf : splitFirst n s.active_goals with
  | none =>
    simp only [log_missed_day, hsf] at h
    obtain rfl := Option.some.inj h
    exact hs
  | some t =>
    obtain ⟨pre, g0, post⟩ := t
    obtain ⟨hl, hn, hpre⟩ := splitFirst_eq_some hsf
    simp only [log_missed_day, hsf] at h
    cases hm : g0.missed_days with
    | none => rw [hm] at h; simp at h
    | some ms =>
      rw [hm] at h
      obtain rfl := Option.some.inj h
      intro g hg
      rcases List.mem_append.mp hg with hp | hp
      · exact hs g (by rw [hl]; exact List.mem_append_left _ hp)
      · rcases List.mem_cons.mp hp with rfl | hp
        · exact hs g0 (by rw [hl]; exact List.mem_append_right _ (List.mem_cons_self _ _))
        · exact hs g (by rw [hl]; exact List.mem_append_right _ (List.mem_cons_of_mem _ hp))

/-- Active goals of any store the operations can build are unstamped. -/
theorem reach_completion_none {s : Store} (h : Reachable s) : Unstamped s := by
  induction h with
  | empty => intro g hg; simp at hg
  | add n t w u _ ih => exact Unstamped_add ih n t w u
  | del n _ ih => exact Unstamped_del ih n
  | log d n a _ ih => exact Unstamped_log ih d n a
  | miss d n r hr he ih => exact Unstamped_miss ih he
  | query d n _ ih =>
    intro g hg
    rw [(weekly_frame d n _).1] at hg
    exact ih g hg

/-- Normalizing the serialized fields of an unstamped goal is exactly the
`missed_days` defaulting. -/
theorem goalFields_norm (g : Goal) (hc : g.completion_date = none) :
    normGoal (goalFields g) =
      goalFields { g with missed_days := some (g.missed_days.getD []) } := by
  obtain ⟨nm, tt, wt, u, dl, md, cd⟩ := g
  simp only at hc
  subst hc
  cases md with
  | none => rfl
  | some ms => rfl

theorem normGoals_mapGoalToJ (l : List Goal)
    (hc : ∀ g ∈ l, g.completion_date = none) :
    normGoals (l.map goalToJ) =
      some ((l.map (fun g => { g with missed_days := some (g.missed_days.getD []) })).map
        goalToJ) := by
  induction l with
  | nil => rfl
  | cons g rest ih =>
    simp only [List.map_cons, goalToJ, normGoals]
    rw [ih (fun x hx => hc x (List.mem_cons_of_mem _ hx))]
    simp only [Option.map_some']
    rw [goalFields_norm g (hc g (List.mem_cons_self _ _))]

theorem load_save (s : Store) (hc : ∀ g ∈ s.active_goals, g.completion_date = none) :
    load_data (some (save_data s)) = some (save_data (fillMissed s)) := by
  have h0 : load_data (some (save_data s)) =
      match normGoals (s.active_goals.map goalToJ) with
      | some gs' => some (JValue.obj
          [("active_goals", JValue.arr gs'),
           ("completed_goals", JValue.arr (s.completed_goals.map goalToJ))])
      | none => none := rfl
  rw [h0, normGoals_mapGoalToJ s.active_goals hc]
  rfl

/-! ## Claim C7 -/

/-- C7 (amended): for every store the operations produce, saving the
document and loading it back yields the same store except that every
active goal missing the `missed_days` key gains `missed_days = []`; all
other fields of all goals, and the entire completed collection, are
reproduced exactly.  (The claim's "same fields and values" is exact only
for stores whose active goals all carry `missed_days`; the counterexample
shows a freshly added goal gaining the key.) -/
theorem claim_C7_roundtrip {s : Store} (h : Reachable s) :
    load_data (some (save_data s)) = some (save_data (fillMissed s)) :=
  load_save s (reach_completion_none h)

/-- C7 counterexample: the store holding exactly one goal created by
`add_goal("run", 10, 5, "km")` does not round-trip identically — the
reloaded document's goal record carries a `missed_days` key the saved
record did not have, so the loaded state is not "the same fields" as the
saved one. -/
theorem claim_C7_counterexample :
    load_data (some (save_data sRun)) ≠ some (save_data sRun)
    ∧ firstActiveGoalKeys (load_data (some (save_data sRun))) =
        ["name", "total_target", "weekly_target", "unit", "daily_logs", "missed_days"]
    ∧ firstActiveGoalKeys (some (save_data sRun)) =
        ["name", "total_target", "weekly_target", "unit", "daily_logs"] := by
  refine ⟨?_, rfl, rfl⟩
  intro h
  exact absurd (congrArg firstActiveGoalKeys h) (by decide)

theorem claim_C7_witness :
    load_data (some (save_data sRun)) = some (save_data (fillMissed sRun)) :=
  claim_C7_roundtrip (Reachable.add "run" 10 5 "km" Reachable.empty)
